import Mathlib

/-!
Shallow embedding of the two components of this repository fragment:

* the Spanner session-pool telemetry module (tag keys, measures, the GFE
  latency capture path, the enable/disable view lifecycle and the
  latency-metrics-enabled flag), and
* the generated Compute disks REST client (URL/query construction for `List`
  and the shared HTTP response handling of all 13 operations).

Go strings are modelled as Lean `String`s; the relevant Go standard-library
and dependency functions (`strings.HasPrefix`, `strings.TrimPrefix`,
`strconv.Atoi`, `metadata.MD.Get`, the OpenCensus `tag` mutators,
`url.Values.Encode`) are embedded faithfully from their actual behaviour.
Side effects (stat records, lock operations, view registration) are made
explicit as values and event traces.
-/

namespace SpannerStats

/-! ## Go standard library helpers -/

/-- `strings.HasPrefix s p` in Go: byte-wise test; on the ASCII literals used
here this coincides with character-wise comparison. -/
def goHasPfx (s p : String) : Bool := s.data.take p.data.length = p.data

/-- `strings.TrimPrefix s p` in Go: removes `p` from the front of `s` when
present, otherwise returns `s` unchanged. -/
def goTrimPfx (s p : String) : String :=
  if goHasPfx s p then ⟨s.data.drop p.data.length⟩ else s

/-- Errors surfaced by the embedded Go code.  `numErrSyntax`/`numErrRange`
model `strconv.NumError` with `ErrSyntax`/`ErrRange`; `errInvalidValue`
models the OpenCensus tag package's invalid-value error; `statusErr` models
`fmt.Errorf(httpRsp.Status)`. -/
inductive GoErr where
  | numErrSyntax (s : String)
  | numErrRange (s : String)
  | errInvalidValue
  | statusErr (status : String)
deriving DecidableEq, Repr

def isGoDigit (c : Char) : Bool := '0' ≤ c && c ≤ '9'

def digitVal (c : Char) : Nat := c.toNat - 48

/-- `strconv.Atoi` in Go (`ParseInt(s, 10, 0)` with 64-bit `int`):
an optional sign followed by one or more decimal digits; empty or
non-digit input is a syntax error, a value outside the `int64` range is a
range error. -/
def goAtoi (s : String) : Except GoErr Int :=
  let signed : Bool × List Char :=
    match s.data with
    | '+' :: rest => (false, rest)
    | '-' :: rest => (true, rest)
    | cs => (false, cs)
  let neg := signed.1
  let ds := signed.2
  if ds.isEmpty then .error (.numErrSyntax s)
  else if ds.all isGoDigit then
    let n : Nat := ds.foldl (fun acc c => acc * 10 + digitVal c) 0
    let v : Int := if neg then -(n : Int) else (n : Int)
    if v < -(2 ^ 63) ∨ (2 ^ 63 - 1) < v then .error (.numErrRange s) else .ok v
  else .error (.numErrSyntax s)

/-- ASCII lower-casing of one character (all strings this module feeds
through it are ASCII, where Go's `strings.ToLower` agrees). -/
def charToLower (c : Char) : Char :=
  if 'A' ≤ c ∧ c ≤ 'Z' then Char.ofNat (c.toNat + 32) else c

/-- `strings.ToLower` on the ASCII strings used here. -/
def strToLower (s : String) : String := ⟨s.data.map charToLower⟩

/-! ## gRPC metadata (`google.golang.org/grpc/metadata`) -/

/-- `metadata.MD`: a map from (lower-case) header names to value lists,
embedded as an association list with the first binding of a key
authoritative. -/
abbrev MD := List (String × List String)

/-- `md.Get(k)`: lower-cases the key and looks it up; a missing key yields
the empty list (a nil slice in Go). -/
def mdGet (md : MD) (k : String) : List String :=
  (List.lookup (strToLower k) md).getD []

/-! ## OpenCensus tag maps (`go.opencensus.io/tag`) -/

/-- A tag map (`tag.Map`): finitely many key/value pairs, embedded as an
association list whose first binding of a key is authoritative. -/
abbrev TagMap := List (String × String)

/-- Lookup of a key's (first) binding in a tag map. -/
def tmGet : TagMap → String → Option String
  | [], _ => none
  | (k', v') :: rest, k => if k' = k then some v' else tmGet rest k

def isPrintableASCII (c : Char) : Bool := ' ' ≤ c && c ≤ '~'

/-- OpenCensus `checkValue`: at most 255 bytes, all printable ASCII.  On
strings that pass the ASCII test the byte length equals the character
length, so the character count is used. -/
def checkValue (v : String) : Bool :=
  decide (v.length ≤ 255) && v.data.all isPrintableASCII

/-- Replace the first binding of `k` (or append one): the effect of Go map
assignment `m[k] = v` viewed through `tmGet`. -/
def tmPut : TagMap → String → String → TagMap
  | [], k, v => [(k, v)]
  | (k', v') :: rest, k, v =>
      if k' = k then (k, v) :: rest else (k', v') :: tmPut rest k v

/-- `tag.Map.insert`: adds the binding only when the key is absent. -/
def tmIns (m : TagMap) (k v : String) : TagMap :=
  if (tmGet m k).isSome then m else m ++ [(k, v)]

/-- The two tag mutators the telemetry module uses: `tag.Insert` and
`tag.Upsert`. -/
inductive Mutator where
  | insert (k v : String)
  | upsert (k v : String)

/-- Applying one mutator: both validate the value first
(`errInvalidValue` on failure); `insert` then keeps a pre-existing
binding, `upsert` overwrites it. -/
def applyMutator (m : TagMap) : Mutator → Except GoErr TagMap
  | .insert k v =>
      if checkValue v then .ok (tmIns m k v) else .error .errInvalidValue
  | .upsert k v =>
      if checkValue v then .ok (tmPut m k v) else .error .errInvalidValue

/-- `tag.New ctx mutators`: folds the mutators over the context's tag map,
stopping at the first error. -/
def tagNew (m : TagMap) : List Mutator → Except GoErr TagMap
  | [] => .ok m
  | mu :: rest =>
      match applyMutator m mu with
      | .error e => .error e
      | .ok m' => tagNew m' rest

/-- `tag.NewContext ctx (tag.FromContext ctx)`: re-stores the context's own
tag map, leaving it unchanged. -/
def tagNewContextFromSame (m : TagMap) : TagMap := m

/-! ## Tag keys, measures and views -/

def tagKeyClientID : String := "client_id"
def tagKeyDatabase : String := "database"
def tagKeyInstance : String := "instance_id"
def tagKeyLibVersion : String := "library_version"
def tagKeyMethod : String := "grpc_client_method"

def statsPfx : String := "cloud.google.com/go/spanner/"

/-- `stats.Int64`: a named measure with a description and a unit. -/
structure Measure where
  name : String
  description : String
  unit : String
deriving DecidableEq, Repr

def GFELatency : Measure :=
  { name := statsPfx ++ "gfe_latency"
    description := "Latency between Google's network receiving an RPC and reading back the first byte of the response"
    unit := "ms" }

def GFEHeaderMissingCount : Measure :=
  { name := statsPfx ++ "gfe_header_missing_count"
    description := "Number of RPC responses received without the server-timing header, most likely means that the RPC never reached Google's network"
    unit := "1" }

/-- A view binds a measure to an aggregation and tag keys; only the name is
needed by the lifecycle claims. -/
structure View where
  name : String
  measureName : String
deriving DecidableEq, Repr

def GFELatencyView : View :=
  { name := "cloud.google.com/go/spanner/gfe_latency", measureName := GFELatency.name }

def GFEHeaderMissingCountView : View :=
  { name := "cloud.google.com/go/spanner/gfe_header_missing_count",
    measureName := GFEHeaderMissingCount.name }

/-! ## Stat recording -/

/-- One `stats.Record` call: the measure's name, the recorded value and the
tag map of the context at the moment of recording. -/
structure RecordEvent where
  measure : String
  value : Int
  tags : TagMap
deriving DecidableEq, Repr

/-- `recordStat(ctx, m, n)`, i.e. `stats.Record(ctx, m.M(n))`. -/
def recordStat (ctx : TagMap) (m : Measure) (n : Int) : RecordEvent :=
  ⟨m.name, n, ctx⟩

/-- The observable outcome of one call to the capture path: the list of
stat records it issued, and the returned Go `error` (`none` is nil). -/
structure CaptureResult where
  records : List RecordEvent
  err : Option GoErr
deriving DecidableEq, Repr

/-! ## The GFE latency capture path -/

def gfeTimingPfx : String := "gfet4t7; dur="

/-- `captureGFELatencyStats(ctx, md, keyMethod)` from the source, with the
context's tag map passed explicitly and stat records returned explicitly.
The Go code computes `gfeLatency, err := strconv.Atoi(strings.TrimPrefix(
serverTiming, "gfet4t7; dur="))` and then returns `err` whenever
`!strings.HasPrefix(serverTiming, "gfet4t7; dur=") || err != nil`; note
that this returns a nil error when the prefix is absent but the whole
value parses as an integer. -/
def captureGFELatencyStats (ctx : TagMap) (md : MD) (keyMethod : String) :
    CaptureResult :=
  if (mdGet md "server-timing").length = 0 then
    { records := [recordStat ctx GFEHeaderMissingCount 1], err := none }
  else
    let serverTiming := (mdGet md "server-timing").headI
    match goAtoi (goTrimPfx serverTiming gfeTimingPfx) with
    | .error e =>
        -- `err != nil`, so the disjunction holds and `err` is returned.
        { records := [], err := some e }
    | .ok gfeLatency =>
        if !goHasPfx serverTiming gfeTimingPfx then
          -- `!HasPrefix` holds with `err == nil`: `return err` returns nil.
          { records := [], err := none }
        else
          match tagNew (tagNewContextFromSame ctx)
              [Mutator.insert tagKeyMethod keyMethod] with
          | .error e => { records := [], err := some e }
          | .ok ctx2 =>
              { records := [recordStat ctx2 GFELatency gfeLatency], err := none }

/-- The fixed library version `version.Repo` of
`cloud.google.com/go/internal/version`, a build-time constant of the
repository outside this excerpt; its concrete value is irrelevant to every
claim. -/
def versionRepo : String := "20201104"

/-- `commonTags` from the source (the Go field `instance` is a Lean keyword
and is rendered `instanceID`). -/
structure CommonTags where
  clientID : String
  database : String
  instanceID : String
  libVersion : String
deriving DecidableEq, Repr

/-- `createContextAndCaptureGFELatencyMetrics(ctx, ct, md, keyMethod)` from
the source: upserts the four common tags, then delegates to
`captureGFELatencyStats`. -/
def createContextAndCaptureGFELatencyMetrics (ctx : TagMap) (ct : CommonTags)
    (md : MD) (keyMethod : String) : CaptureResult :=
  match tagNew ctx
      [Mutator.upsert tagKeyClientID ct.clientID,
       Mutator.upsert tagKeyDatabase ct.database,
       Mutator.upsert tagKeyInstance ct.instanceID,
       Mutator.upsert tagKeyLibVersion ct.libVersion] with
  | .error e => { records := [], err := some e }
  | .ok ctxGFE => captureGFELatencyStats ctxGFE md keyMethod

/-- `sessionClient`: the two fields `getCommonTags` reads. -/
structure SessionClient where
  id : String
  database : String
deriving DecidableEq, Repr

/-- Split a character list at every occurrence of `sep` (the behaviour of
`strings.Split` / `String.splitOn` for a one-character separator). -/
def splitOnChar (sep : Char) : List Char → List (List Char)
  | [] => [[]]
  | c :: rest =>
      match splitOnChar sep rest with
      | [] => [[]]
      | g :: gs => if c = sep then [] :: g :: gs else (c :: g) :: gs

/-- Modelled from the spec: `parseDatabaseName`, the external parser owning
the fully-qualified database resource name grammar
`projects/<p>/instances/<i>/databases/<d>` (each segment non-empty and
slash-free); its code is not part of this excerpt.  Returns
(project, instance, database) or fails. -/
def parseDatabaseName (dbName : String) : Except GoErr (String × String × String) :=
  match (splitOnChar '/' dbName.data).map (fun g => (⟨g⟩ : String)) with
  | ["projects", p, "instances", i, "databases", d] =>
      if p ≠ "" ∧ i ≠ "" ∧ d ≠ "" then .ok (p, i, d)
      else .error (.numErrSyntax dbName)
  | _ => .error (.numErrSyntax dbName)

/-- `getCommonTags(sc)` from the source: `nil` (here `none`) when the
database resource name fails to parse, otherwise the bundle of client id,
parsed database and instance names, and the library version constant. -/
def getCommonTags (sc : SessionClient) : Option CommonTags :=
  match parseDatabaseName sc.database with
  | .error _ => none
  | .ok (_, inst, db) =>
      some { clientID := sc.id, database := db, instanceID := inst,
             libVersion := versionRepo }

/-! ## The latency-metrics-enabled flag, its lock, and the view lifecycle

The process-wide state is the boolean `gfeLatencyMetricsEnabled`, guarded by
the readers-writer mutex `statsMu`.  Each entry point is embedded as a
function from the state to (result, new state, event trace); lock
operations, flag accesses, view (un)registrations and stat records appear
as explicit events so that ordering claims can be stated. -/

/-- The process-wide mutable state of the stats module. -/
structure StatsState where
  gfeLatencyMetricsEnabled : Bool
deriving DecidableEq, Repr

/-- `view.Register` errors are produced by the external registry
(`RegistrationError` in the spec's taxonomy); the registry's verdict is an
input to the embedded lifecycle functions. -/
structure RegErr where
  msg : String
deriving DecidableEq, Repr

/-- Observable events of the stats module. -/
inductive Ev where
  | rlock
  | runlock
  | lock
  | unlock
  | readFlag (b : Bool)
  | writeFlag (b : Bool)
  | registerView (name : String)
  | unregisterView (name : String)
  | record (e : RecordEvent)
deriving DecidableEq, Repr

/-- `view.Register(views...)`: an external call; it emits one registration
event per view and returns the registry's verdict `regErr`. -/
def viewRegister (views : List View) (regErr : Option RegErr) :
    List Ev × Option RegErr :=
  (views.map (fun v => Ev.registerView v.name), regErr)

/-- `view.Unregister(views...)`: an external call emitting one event per
view. -/
def viewUnregister (views : List View) : List Ev :=
  views.map (fun v => Ev.unregisterView v.name)

/-- `getGFELatencyMetricsFlag()` from the source: reads the flag under the
shared (read) lock. -/
def getGFELatencyMetricsFlag (s : StatsState) : Bool × List Ev :=
  (s.gfeLatencyMetricsEnabled,
   [Ev.rlock, Ev.readFlag s.gfeLatencyMetricsEnabled, Ev.runlock])

/-- `setGFELatencyMetricsFlag(enable)` from the source: writes the flag
under the exclusive lock. -/
def setGFELatencyMetricsFlag (_s : StatsState) (enable : Bool) :
    StatsState × List Ev :=
  ({ gfeLatencyMetricsEnabled := enable },
   [Ev.lock, Ev.writeFlag enable, Ev.unlock])

/-- `EnableGfeLatencyView()` from the source: sets the flag true, then
registers `GFELatencyView`; the registry's verdict is returned unchanged. -/
def EnableGfeLatencyView (s : StatsState) (regErr : Option RegErr) :
    StatsState × List Ev × Option RegErr :=
  let (s1, t1) := setGFELatencyMetricsFlag s true
  let (t2, e) := viewRegister [GFELatencyView] regErr
  (s1, t1 ++ t2, e)

/-- `EnableGfeHeaderMissingCountView()` from the source. -/
def EnableGfeHeaderMissingCountView (s : StatsState) (regErr : Option RegErr) :
    StatsState × List Ev × Option RegErr :=
  let (s1, t1) := setGFELatencyMetricsFlag s true
  let (t2, e) := viewRegister [GFEHeaderMissingCountView] regErr
  (s1, t1 ++ t2, e)

/-- `EnableGfeLatencyAndHeaderMissingCountViews()` from the source. -/
def EnableGfeLatencyAndHeaderMissingCountViews (s : StatsState)
    (regErr : Option RegErr) : StatsState × List Ev × Option RegErr :=
  let (s1, t1) := setGFELatencyMetricsFlag s true
  let (t2, e) := viewRegister [GFELatencyView, GFEHeaderMissingCountView] regErr
  (s1, t1 ++ t2, e)

/-- `DisableGfeLatencyAndHeaderMissingCountViews()` from the source: sets
the flag false, then unregisters both views. -/
def DisableGfeLatencyAndHeaderMissingCountViews (s : StatsState) :
    StatsState × List Ev :=
  let (s1, t1) := setGFELatencyMetricsFlag s false
  (s1, t1 ++ viewUnregister [GFELatencyView, GFEHeaderMissingCountView])

/-- Modelled from the spec: the RPC-instrumentation caller of the capture
path (it lives outside this excerpt, which contains only the declarations
it calls).  Per the spec, the latency-metrics-enabled flag is "read before
every latency-capture attempt": the caller reads the flag via
`getGFELatencyMetricsFlag` and only then, when it is set, runs the capture
path. -/
def latencyCaptureAttempt (s : StatsState) (ctx : TagMap) (ct : CommonTags)
    (md : MD) (keyMethod : String) : List Ev × Option GoErr :=
  let (enabled, t1) := getGFELatencyMetricsFlag s
  if enabled then
    let res := createContextAndCaptureGFELatencyMetrics ctx ct md keyMethod
    (t1 ++ res.records.map Ev.record, res.err)
  else
    (t1, none)

/-- Every flag write in the trace sits inside a `lock` / `unlock` pair,
i.e. is performed by `setGFELatencyMetricsFlag`. -/
def writesLocked : List Ev → Bool
  | [] => true
  | Ev.lock :: Ev.writeFlag _ :: Ev.unlock :: rest => writesLocked rest
  | Ev.writeFlag _ :: _ => false
  | _ :: rest => writesLocked rest

/-- The event traces of every entry point of the stats module (used to
state that none of them writes the flag outside the setter's exclusive
lock). -/
def moduleTraces (s : StatsState) (regErr : Option RegErr) (ctx : TagMap)
    (ct : CommonTags) (md : MD) (keyMethod : String) : List (List Ev) :=
  [(EnableGfeLatencyView s regErr).2.1,
   (EnableGfeHeaderMissingCountView s regErr).2.1,
   (EnableGfeLatencyAndHeaderMissingCountViews s regErr).2.1,
   (DisableGfeLatencyAndHeaderMissingCountViews s).2,
   (getGFELatencyMetricsFlag s).2,
   (setGFELatencyMetricsFlag s true).2,
   (setGFELatencyMetricsFlag s false).2,
   (latencyCaptureAttempt s ctx ct md keyMethod).1]

end SpannerStats

namespace DisksClient

open SpannerStats (GoErr)

/-! ## The generated Compute disks REST client

`ListDisksRequest` carries the fields `List` reads: the required resource
identifiers and the five optional (pointer-typed) query fields. -/

structure ListDisksRequest where
  project : String
  zone : String
  filter : Option String
  maxResults : Option Nat
  orderBy : Option String
  pageToken : Option String
  returnPartialSuccess : Option Bool
deriving DecidableEq, Repr

/-- `fmt.Sprintf("%v", b)` for a Go bool. -/
def fmtBool (b : Bool) : String := if b then "true" else "false"

/-- The URL path `List` appends to the endpoint's path:
`fmt.Sprintf("/compute/v1/projects/%v/zones/%v/disks", req.GetProject(),
req.GetZone())`. -/
def listDisksURLPath (endpointPath : String) (req : ListDisksRequest) : String :=
  endpointPath ++ "/compute/v1/projects/" ++ req.project ++ "/zones/" ++
    req.zone ++ "/disks"

/-- The query parameters `List` adds to `url.Values`, in source order: each
optional field contributes its `fmt.Sprintf("%v", ...)` rendering exactly
when it is set (non-nil). -/
def listDisksQueryParams (req : ListDisksRequest) : List (String × String) :=
  (match req.filter with | some v => [("filter", v)] | none => []) ++
  (match req.maxResults with | some v => [("maxResults", toString v)] | none => []) ++
  (match req.orderBy with | some v => [("orderBy", v)] | none => []) ++
  (match req.pageToken with | some v => [("pageToken", v)] | none => []) ++
  (match req.returnPartialSuccess with
   | some v => [("returnPartialSuccess", fmtBool v)] | none => [])

def upperHexDigit (n : Nat) : Char :=
  "0123456789ABCDEF".data.getD n '0'

/-- The UTF-8 encoding of one code point, as byte values. -/
def utf8Bytes (n : Nat) : List Nat :=
  if n < 0x80 then [n]
  else if n < 0x800 then [0xC0 + n / 64, 0x80 + n % 64]
  else if n < 0x10000 then [0xE0 + n / 4096, 0x80 + n / 64 % 64, 0x80 + n % 64]
  else [0xF0 + n / 262144, 0x80 + n / 4096 % 64, 0x80 + n / 64 % 64, 0x80 + n % 64]

/-- The UTF-8 bytes of a string (Go strings are byte strings; `url` escapes
operate on these bytes). -/
def strUTF8 (s : String) : List Nat :=
  (s.data.map (fun c => utf8Bytes c.toNat)).flatten

/-- Lexicographic byte-string comparison, as Go's `<` on strings. -/
def natListLT : List Nat → List Nat → Bool
  | [], [] => false
  | [], _ :: _ => true
  | _ :: _, [] => false
  | a :: as, b :: bs => if a = b then natListLT as bs else decide (a < b)

def strLT (s t : String) : Bool := natListLT (strUTF8 s) (strUTF8 t)

/-- Is the byte left unescaped by Go's `url.QueryEscape`?  Exactly the
alphanumerics and the bytes for dash, underscore, dot and tilde survive; a
space becomes `+`; everything else is percent-encoded. -/
def isUnreservedQueryByte (b : Nat) : Bool :=
  (65 ≤ b && b ≤ 90) || (97 ≤ b && b ≤ 122) || (48 ≤ b && b ≤ 57) ||
  b = 45 || b = 95 || b = 46 || b = 126

/-- `url.QueryEscape` applied to one UTF-8 byte. -/
def queryEscapeByte (b : Nat) : List Char :=
  if isUnreservedQueryByte b then [Char.ofNat b]
  else if b = 32 then ['+']
  else ['%', upperHexDigit (b / 16 % 16), upperHexDigit (b % 16)]

/-- Go's `url.QueryEscape`: escapes the string byte-wise over its UTF-8
encoding. -/
def queryEscape (s : String) : String :=
  ⟨((strUTF8 s).map queryEscapeByte).flatten⟩

/-- Insert into a key-sorted pair list (stable: equal keys keep order). -/
def insertByKey (a : String × String) : List (String × String) → List (String × String)
  | [] => [a]
  | b :: rest => if strLT a.1 b.1 then a :: b :: rest else b :: insertByKey a rest

/-- Sort a pair list by key (the key sort `url.Values.Encode` performs). -/
def sortByKey (l : List (String × String)) : List (String × String) :=
  l.foldr insertByKey []

/-- `url.Values.Encode()`: keys sorted, each pair rendered as
`escape(k)=escape(v)` and joined with `&`. -/
def urlValuesEncode (params : List (String × String)) : String :=
  String.intercalate "&"
    ((sortByKey params).map
      (fun p => queryEscape p.1 ++ "=" ++ queryEscape p.2))

/-- The full URL string `List` issues its GET against. -/
def listDisksURL (endpointPath : String) (req : ListDisksRequest) : String :=
  let rawQuery := urlValuesEncode (listDisksQueryParams req)
  if rawQuery = "" then listDisksURLPath endpointPath req
  else listDisksURLPath endpointPath req ++ "?" ++ rawQuery

/-! ## HTTP response handling (shared by all 13 operations)

Every operation ends with the same sequence after `c.httpClient.Do`:
check the status code, on non-200 return `nil, fmt.Errorf(httpRsp.Status)`;
otherwise read the whole body with `ioutil.ReadAll` and unmarshal it with
`protojson` into the operation's response type, returning the (possibly
partially filled) response together with the unmarshal error.  The response
types themselves are external protobuf messages; they are embedded as
opaque placeholder types and the external `protojson.Unmarshal` as a
function parameter. -/

/-- What `c.httpClient.Do` handed back: the status line, the status code
and the behaviour of the body (`bodyReadErr` is the error `ioutil.ReadAll`
would produce, `body` the bytes it would return). -/
structure HTTPResponse where
  statusCode : Nat
  status : String
  body : List Nat
  bodyReadErr : Option GoErr
deriving DecidableEq, Repr

/-- `http.StatusOK`. -/
def httpStatusOK : Nat := 200

/-- Observable I/O on the response body. -/
inductive BodyEv where
  | readBody
  | unmarshalBody
deriving DecidableEq, Repr

/-- An unmarshal step `unm.Unmarshal(buf, rsp)`: fills `rsp` (returned even
on error) and yields the error, if any. -/
abbrev Unmarshaler (α : Type) := List Nat → α × Option GoErr

/-- The shared response tail of every disks operation: status check, body
read, unmarshal; the first component traces which body operations ran. -/
def handleHTTPResponse {α : Type} (unm : Unmarshaler α) (rsp : HTTPResponse) :
    List BodyEv × Option α × Option GoErr :=
  if rsp.statusCode ≠ httpStatusOK then
    ([], none, some (.statusErr rsp.status))
  else
    match rsp.bodyReadErr with
    | some e => ([BodyEv.readBody], none, some e)
    | none =>
        let r := unm rsp.body
        ([BodyEv.readBody, BodyEv.unmarshalBody], some r.1, r.2)

/-- Placeholder for the external protobuf message `computepb.Operation`. -/
structure Operation where
  raw : List Nat
deriving DecidableEq, Repr

/-- Placeholder for `computepb.Disk`. -/
structure Disk where
  raw : List Nat
deriving DecidableEq, Repr

/-- Placeholder for `computepb.DiskList`. -/
structure DiskList where
  raw : List Nat
deriving DecidableEq, Repr

/-- Placeholder for `computepb.DiskAggregatedList`. -/
structure DiskAggregatedList where
  raw : List Nat
deriving DecidableEq, Repr

/-- Placeholder for `computepb.Policy`. -/
structure Policy where
  raw : List Nat
deriving DecidableEq, Repr

/-- Placeholder for `computepb.TestPermissionsResponse`. -/
structure TestPermissionsResponse where
  raw : List Nat
deriving DecidableEq, Repr

/-- Response tail of `AddResourcePolicies` (result `*computepb.Operation`). -/
def addResourcePoliciesRespond (unm : Unmarshaler Operation) (rsp : HTTPResponse) :
    List BodyEv × Option Operation × Option GoErr := handleHTTPResponse unm rsp

/-- Response tail of `AggregatedList` (result `*computepb.DiskAggregatedList`). -/
def aggregatedListRespond (unm : Unmarshaler DiskAggregatedList) (rsp : HTTPResponse) :
    List BodyEv × Option DiskAggregatedList × Option GoErr := handleHTTPResponse unm rsp

/-- Response tail of `CreateSnapshot` (result `*computepb.Operation`). -/
def createSnapshotRespond (unm : Unmarshaler Operation) (rsp : HTTPResponse) :
    List BodyEv × Option Operation × Option GoErr := handleHTTPResponse unm rsp

/-- Response tail of `Delete` (result `*computepb.Operation`). -/
def deleteRespond (unm : Unmarshaler Operation) (rsp : HTTPResponse) :
    List BodyEv × Option Operation × Option GoErr := handleHTTPResponse unm rsp

/-- Response tail of `Get` (result `*computepb.Disk`). -/
def getRespond (unm : Unmarshaler Disk) (rsp : HTTPResponse) :
    List BodyEv × Option Disk × Option GoErr := handleHTTPResponse unm rsp

/-- Response tail of `GetIamPolicy` (result `*computepb.Policy`). -/
def getIamPolicyRespond (unm : Unmarshaler Policy) (rsp : HTTPResponse) :
    List BodyEv × Option Policy × Option GoErr := handleHTTPResponse unm rsp

/-- Response tail of `Insert` (result `*computepb.Operation`). -/
def insertRespond (unm : Unmarshaler Operation) (rsp : HTTPResponse) :
    List BodyEv × Option Operation × Option GoErr := handleHTTPResponse unm rsp

/-- Response tail of `List` (result `*computepb.DiskList`). -/
def listRespond (unm : Unmarshaler DiskList) (rsp : HTTPResponse) :
    List BodyEv × Option DiskList × Option GoErr := handleHTTPResponse unm rsp

/-- Response tail of `RemoveResourcePolicies` (result `*computepb.Operation`). -/
def removeResourcePoliciesRespond (unm : Unmarshaler Operation) (rsp : HTTPResponse) :
    List BodyEv × Option Operation × Option GoErr := handleHTTPResponse unm rsp

/-- Response tail of `Resize` (result `*computepb.Operation`). -/
def resizeRespond (unm : Unmarshaler Operation) (rsp : HTTPResponse) :
    List BodyEv × Option Operation × Option GoErr := handleHTTPResponse unm rsp

/-- Response tail of `SetIamPolicy` (result `*computepb.Policy`). -/
def setIamPolicyRespond (unm : Unmarshaler Policy) (rsp : HTTPResponse) :
    List BodyEv × Option Policy × Option GoErr := handleHTTPResponse unm rsp

/-- Response tail of `SetLabels` (result `*computepb.Operation`). -/
def setLabelsRespond (unm : Unmarshaler Operation) (rsp : HTTPResponse) :
    List BodyEv × Option Operation × Option GoErr := handleHTTPResponse unm rsp

/-- Response tail of `TestIamPermissions` (result
`*computepb.TestPermissionsResponse`). -/
def testIamPermissionsRespond (unm : Unmarshaler TestPermissionsResponse)
    (rsp : HTTPResponse) :
    List BodyEv × Option TestPermissionsResponse × Option GoErr :=
  handleHTTPResponse unm rsp

end DisksClient


/-! # Verification -/

namespace SpannerStats

/-! ## Helper lemmas -/

theorem goHasPfx_append (p s : String) : goHasPfx (p ++ s) p = true := by
  simp [goHasPfx, String.data_append, List.take_left]

theorem goTrimPfx_append (p s : String) : goTrimPfx (p ++ s) p = s := by
  unfold goTrimPfx
  rw [goHasPfx_append]
  simp [String.data_append, List.drop_left]

theorem tmGet_tmPut_self (m : TagMap) (k v : String) :
    tmGet (tmPut m k v) k = some v := by
  induction m with
  | nil => simp [tmPut, tmGet]
  | cons hd tl ih =>
      obtain ⟨k', v'⟩ := hd
      by_cases h : k' = k
      · subst h; simp [tmPut, tmGet]
      · simp [tmPut, h, tmGet, ih]

theorem tmGet_tmPut_ne (m : TagMap) {k k' : String} (v : String) (h : k' ≠ k) :
    tmGet (tmPut m k' v) k = tmGet m k := by
  induction m with
  | nil => simp [tmPut, tmGet, h]
  | cons hd tl ih =>
      obtain ⟨k'', v''⟩ := hd
      by_cases h' : k'' = k'
      · subst h'; simp [tmPut, tmGet, h]
      · simp [tmPut, h', tmGet, ih]

theorem tmIns_of_present (m : TagMap) {k : String} (v : String)
    (h : (tmGet m k).isSome = true) : tmIns m k v = m := by
  simp [tmIns, h]

theorem tmGet_tmIns_absent (m : TagMap) {k : String} (v : String)
    (h : tmGet m k = none) : tmGet (tmIns m k v) k = some v := by
  have : ∀ m' : TagMap, tmGet m' k = none → tmGet (m' ++ [(k, v)]) k = some v := by
    intro m' hm'
    induction m' with
    | nil => simp [tmGet]
    | cons hd tl ih =>
        obtain ⟨k', v'⟩ := hd
        by_cases h' : k' = k
        · subst h'; simp [tmGet] at hm'
        · simp [tmGet, h'] at hm' ⊢; exact ih hm'
  simp [tmIns, h]
  exact this m h

/-- The successful branch of the capture path, fully evaluated. -/
theorem captureGFELatencyStats_success (ctx : TagMap) (md : MD)
    (rest : List String) (keyMethod s : String) (n : Int)
    (hmd : mdGet md "server-timing" = (gfeTimingPfx ++ s) :: rest)
    (hn : goAtoi s = .ok n) (hv : checkValue keyMethod = true) :
    captureGFELatencyStats ctx md keyMethod =
      { records := [recordStat (tmIns ctx tagKeyMethod keyMethod) GFELatency n],
        err := none } := by
  unfold captureGFELatencyStats
  rw [hmd]
  simp [List.headI, goTrimPfx_append, hn, goHasPfx_append, tagNew, applyMutator,
    hv, tagNewContextFromSame]

/-! ## Claim C1 -/

/-- **C1** (corrected).  For every metadata map whose server-timing value
list is non-empty, if the first value does not start with the literal
"gfet4t7; dur=" or the remainder after trimming that literal is not a
valid base-10 integer, then `captureGFELatencyStats` records nothing at
all (in particular nothing on the GFELatency measure) and its returned
error is nil exactly when `strconv.Atoi` of the trimmed value succeeded:
non-nil whenever parsing failed, but nil in the corner where the literal
is absent yet the whole value is itself a valid integer. -/
theorem claim_C1_parseFailurePath (ctx : TagMap) (md : MD) (keyMethod : String)
    (hne : mdGet md "server-timing" ≠ [])
    (hbad : goHasPfx ((mdGet md "server-timing").headI) gfeTimingPfx = false ∨
      ∃ e, goAtoi (goTrimPfx ((mdGet md "server-timing").headI) gfeTimingPfx) =
        .error e) :
    (captureGFELatencyStats ctx md keyMethod).records = [] ∧
    ((captureGFELatencyStats ctx md keyMethod).err = none ↔
      ∃ n, goAtoi (goTrimPfx ((mdGet md "server-timing").headI) gfeTimingPfx) =
        .ok n) := by
  obtain ⟨v, rest, hmd⟩ : ∃ v rest, mdGet md "server-timing" = v :: rest := by
    cases h : mdGet md "server-timing" with
    | nil => exact absurd h hne
    | cons v rest => exact ⟨v, rest, rfl⟩
  unfold captureGFELatencyStats
  rw [hmd] at hbad ⊢
  simp only [List.headI] at hbad ⊢
  cases hA : goAtoi (goTrimPfx v gfeTimingPfx) with
  | error e => simp [hA]
  | ok n =>
      rcases hbad with hbad | ⟨e, he⟩
      · simp [hA, hbad]
      · rw [hA] at he; cases he

/-- **C1** witness: a present but non-integer suffix yields no records and
a non-nil error. -/
theorem claim_C1_witness :
    (captureGFELatencyStats [] [("server-timing", ["gfet4t7; dur=xx"])] "Read").records = [] ∧
    ((captureGFELatencyStats [] [("server-timing", ["gfet4t7; dur=xx"])] "Read").err = none ↔
      ∃ n, goAtoi (goTrimPfx ((mdGet [("server-timing", ["gfet4t7; dur=xx"])]
        "server-timing").headI) gfeTimingPfx) = .ok n) :=
  claim_C1_parseFailurePath [] [("server-timing", ["gfet4t7; dur=xx"])] "Read"
    (by decide) (Or.inr ⟨GoErr.numErrSyntax "xx", by rfl⟩)

/-- **C1** counterexample: with first server-timing value "7" the value
list is non-empty and the literal "gfet4t7; dur=" is absent, so the claim
demands a non-nil parse error; but the code returns nil, because it
returns the nil error of a successful `strconv.Atoi` of the untrimmed
value. -/
theorem claim_C1_counterexample :
    mdGet [("server-timing", ["7"])] "server-timing" ≠ [] ∧
    goHasPfx ((mdGet [("server-timing", ["7"])] "server-timing").headI)
      gfeTimingPfx = false ∧
    (captureGFELatencyStats [] [("server-timing", ["7"])] "Read").err = none := by
  decide

/-! ## Claim C3 -/

/-- **C3** (confirmed).  For every metadata map in which the server-timing
key has an empty value list, `captureGFELatencyStats` records exactly one
unit on the GFEHeaderMissingCount measure (and hence nothing on the
GFELatency measure) and returns no error. -/
theorem claim_C3_headerMissing (ctx : TagMap) (md : MD) (keyMethod : String)
    (h : mdGet md "server-timing" = []) :
    captureGFELatencyStats ctx md keyMethod =
      { records := [recordStat ctx GFEHeaderMissingCount 1], err := none } ∧
    ∀ e ∈ (captureGFELatencyStats ctx md keyMethod).records,
      e.measure ≠ GFELatency.name := by
  have hres : captureGFELatencyStats ctx md keyMethod =
      { records := [recordStat ctx GFEHeaderMissingCount 1], err := none } := by
    unfold captureGFELatencyStats
    rw [h]
    simp
  refine ⟨hres, ?_⟩
  rw [hres]
  intro e he
  simp only [List.mem_singleton] at he
  subst he
  simp [recordStat, GFEHeaderMissingCount, GFELatency, statsPfx]

/-- **C3** witness: a metadata map without the server-timing key. -/
theorem claim_C3_witness :
    captureGFELatencyStats [("client_id", "client-1")] [("content-type", ["json"])] "Read" =
      { records := [recordStat [("client_id", "client-1")] GFEHeaderMissingCount 1],
        err := none } ∧
    ∀ e ∈ (captureGFELatencyStats [("client_id", "client-1")]
      [("content-type", ["json"])] "Read").records, e.measure ≠ GFELatency.name :=
  claim_C3_headerMissing [("client_id", "client-1")] [("content-type", ["json"])]
    "Read" (by decide)

/-! ## Claim C2 -/

/-- **C2** (corrected).  For every metadata map whose first server-timing
value is exactly "gfet4t7; dur=" followed by a string that
`strconv.Atoi` parses as the non-negative integer N, and every method name
that is a valid tag value, `captureGFELatencyStats` records exactly N on
the GFELatency measure and returns no error; the recording context is the
incoming context with the method name *inserted* under grpc_client_method,
which carries the given method name whenever the incoming context did not
already bind that key (a pre-existing binding is kept, not overwritten). -/
theorem claim_C2_successPath (ctx : TagMap) (md : MD) (rest : List String)
    (keyMethod s : String) (n : Int)
    (hmd : mdGet md "server-timing" = (gfeTimingPfx ++ s) :: rest)
    (hn : goAtoi s = .ok n) (hnn : 0 ≤ n) (hv : checkValue keyMethod = true) :
    captureGFELatencyStats ctx md keyMethod =
      { records := [recordStat (tmIns ctx tagKeyMethod keyMethod) GFELatency n],
        err := none } ∧
    (tmGet ctx tagKeyMethod = none →
      tmGet (tmIns ctx tagKeyMethod keyMethod) tagKeyMethod = some keyMethod) := by
  refine ⟨captureGFELatencyStats_success ctx md rest keyMethod s n hmd hn hv, ?_⟩
  intro h
  exact tmGet_tmIns_absent ctx keyMethod h

/-- **C2** witness: header "gfet4t7; dur=42" and method "ReadRows" on a
fresh context record exactly 42 tagged with the method name. -/
theorem claim_C2_witness :
    captureGFELatencyStats [] [("server-timing", ["gfet4t7; dur=42"])] "ReadRows" =
      { records := [recordStat (tmIns [] tagKeyMethod "ReadRows") GFELatency 42],
        err := none } ∧
    (tmGet [] tagKeyMethod = none →
      tmGet (tmIns [] tagKeyMethod "ReadRows") tagKeyMethod = some "ReadRows") :=
  claim_C2_successPath [] [("server-timing", ["gfet4t7; dur=42"])] [] "ReadRows"
    "42" 42 (by decide) (by rfl) (by decide) (by decide)

/-- **C2** counterexample: with a context that already carries
grpc_client_method = "Apply", the value "gfet4t7; dur=42" and the given
method name "Read", the code records 42 — but in a context still tagged
"Apply", not the given method name, because `tag.Insert` does not
overwrite; this refutes the claim's "tagged with the given method name"
for arbitrary incoming contexts. -/
theorem claim_C2_counterexample :
    (captureGFELatencyStats [("grpc_client_method", "Apply")]
        [("server-timing", ["gfet4t7; dur=42"])] "Read").err = none ∧
    (captureGFELatencyStats [("grpc_client_method", "Apply")]
        [("server-timing", ["gfet4t7; dur=42"])] "Read").records =
      [{ measure := "cloud.google.com/go/spanner/gfe_latency", value := 42,
         tags := [("grpc_client_method", "Apply")] }] ∧
    ∀ e ∈ (captureGFELatencyStats [("grpc_client_method", "Apply")]
        [("server-timing", ["gfet4t7; dur=42"])] "Read").records,
      tmGet e.tags tagKeyMethod ≠ some "Read" := by
  decide

/-! ## Claim C4 -/

/-- **C4** counterexample: the method-tag construction in
`captureGFELatencyStats` does not have upsert semantics.  With a context
already binding grpc_client_method to "Old" and the method name "New", the
recorded context still carries "Old": the pre-existing value is not
overwritten by the new one. -/
theorem claim_C4_counterexample :
    (captureGFELatencyStats [("grpc_client_method", "Old")]
        [("server-timing", ["gfet4t7; dur=7"])] "New").records =
      [{ measure := "cloud.google.com/go/spanner/gfe_latency", value := 7,
         tags := [("grpc_client_method", "Old")] }] := by
  decide

/-- **C4** (corrected).  The four common tags inserted by
`createContextAndCaptureGFELatencyMetrics` use `tag.Upsert` and therefore
overwrite any pre-existing value for their keys; but the method tag
inserted by `captureGFELatencyStats` uses `tag.Insert`, which leaves the
context unchanged when grpc_client_method is already bound. -/
theorem claim_C4_tagMutatorSemantics :
    (∀ (ctx : TagMap) (ct : CommonTags),
      checkValue ct.clientID = true → checkValue ct.database = true →
      checkValue ct.instanceID = true → checkValue ct.libVersion = true →
      ∃ m', tagNew ctx
          [Mutator.upsert tagKeyClientID ct.clientID,
           Mutator.upsert tagKeyDatabase ct.database,
           Mutator.upsert tagKeyInstance ct.instanceID,
           Mutator.upsert tagKeyLibVersion ct.libVersion] = .ok m' ∧
        tmGet m' tagKeyClientID = some ct.clientID ∧
        tmGet m' tagKeyDatabase = some ct.database ∧
        tmGet m' tagKeyInstance = some ct.instanceID ∧
        tmGet m' tagKeyLibVersion = some ct.libVersion) ∧
    (∀ (m : TagMap) (keyMethod old : String),
      tmGet m tagKeyMethod = some old → checkValue keyMethod = true →
      tagNew (tagNewContextFromSame m) [Mutator.insert tagKeyMethod keyMethod] =
        .ok m) := by
  constructor
  · intro ctx ct h1 h2 h3 h4
    refine ⟨tmPut (tmPut (tmPut (tmPut ctx tagKeyClientID ct.clientID)
      tagKeyDatabase ct.database) tagKeyInstance ct.instanceID)
      tagKeyLibVersion ct.libVersion, ?_, ?_, ?_, ?_, ?_⟩
    · simp [tagNew, applyMutator, h1, h2, h3, h4]
    · rw [tmGet_tmPut_ne _ _ (by decide : tagKeyLibVersion ≠ tagKeyClientID),
        tmGet_tmPut_ne _ _ (by decide : tagKeyInstance ≠ tagKeyClientID),
        tmGet_tmPut_ne _ _ (by decide : tagKeyDatabase ≠ tagKeyClientID),
        tmGet_tmPut_self]
    · rw [tmGet_tmPut_ne _ _ (by decide : tagKeyLibVersion ≠ tagKeyDatabase),
        tmGet_tmPut_ne _ _ (by decide : tagKeyInstance ≠ tagKeyDatabase),
        tmGet_tmPut_self]
    · rw [tmGet_tmPut_ne _ _ (by decide : tagKeyLibVersion ≠ tagKeyInstance),
        tmGet_tmPut_self]
    · rw [tmGet_tmPut_self]
  · intro m keyMethod old h hv
    simp [tagNew, applyMutator, tagNewContextFromSame, hv, tmIns, h]

/-- **C4** witness: concrete overwrite of a stale client_id binding by the
four common-tag upserts, and a concrete no-op insert of the method tag
into a context already binding grpc_client_method. -/
theorem claim_C4_witness :
    (∃ m', tagNew [("client_id", "stale")]
        [Mutator.upsert tagKeyClientID "client-2",
         Mutator.upsert tagKeyDatabase "db",
         Mutator.upsert tagKeyInstance "inst",
         Mutator.upsert tagKeyLibVersion "v1"] = .ok m' ∧
      tmGet m' tagKeyClientID = some "client-2" ∧
      tmGet m' tagKeyDatabase = some "db" ∧
      tmGet m' tagKeyInstance = some "inst" ∧
      tmGet m' tagKeyLibVersion = some "v1") ∧
    tagNew (tagNewContextFromSame [("grpc_client_method", "M0")])
      [Mutator.insert tagKeyMethod "M1"] = .ok [("grpc_client_method", "M0")] :=
  ⟨claim_C4_tagMutatorSemantics.1 [("client_id", "stale")]
      ⟨"client-2", "db", "inst", "v1"⟩ (by decide) (by decide) (by decide) (by decide),
   claim_C4_tagMutatorSemantics.2 [("grpc_client_method", "M0")] "M1" "M0"
      (by decide) (by decide)⟩

/-! ## Claims C5, C6, C7 -/

/-- No flag-write event occurs in the trace. -/
def noWriteFlag (t : List Ev) : Bool :=
  t.all fun e => match e with | Ev.writeFlag _ => false | _ => true

/-- **C5** (confirmed; the capture-path caller is modelled from the spec).
First: every latency-capture attempt begins by reading the
latency-metrics-enabled flag under the shared lock — the first three trace
events are rlock, the flag read, runlock — and everything after that
initial read is a stat record.  Second: in the trace of every entry point
of the stats module, flag writes happen only as the lock/write/unlock
block of `setGFELatencyMetricsFlag` (the setter under the exclusive lock);
every remaining event is write-free. -/
theorem claim_C5_flagDiscipline (s : StatsState) (regErr : Option RegErr)
    (ctx : TagMap) (ct : CommonTags) (md : MD) (keyMethod : String) :
    ((latencyCaptureAttempt s ctx ct md keyMethod).1.take 3 =
        [Ev.rlock, Ev.readFlag s.gfeLatencyMetricsEnabled, Ev.runlock] ∧
      ∀ e ∈ (latencyCaptureAttempt s ctx ct md keyMethod).1.drop 3,
        ∃ r, e = Ev.record r) ∧
    ∀ t ∈ moduleTraces s regErr ctx ct md keyMethod,
      (∃ b rest, t = (setGFELatencyMetricsFlag s b).2 ++ rest ∧
        noWriteFlag rest = true) ∨
      noWriteFlag t = true := by
  constructor
  · cases h : s.gfeLatencyMetricsEnabled <;>
      simp [latencyCaptureAttempt, getGFELatencyMetricsFlag, h]
  · intro t ht
    simp only [moduleTraces, List.mem_cons, List.not_mem_nil, or_false] at ht
    rcases ht with rfl | rfl | rfl | rfl | rfl | rfl | rfl | rfl
    · exact Or.inl ⟨true, _, rfl, rfl⟩
    · exact Or.inl ⟨true, _, rfl, rfl⟩
    · exact Or.inl ⟨true, _, rfl, rfl⟩
    · exact Or.inl ⟨false, _, rfl, rfl⟩
    · exact Or.inr rfl
    · exact Or.inl ⟨true, [], (List.append_nil _).symm, rfl⟩
    · exact Or.inl ⟨false, [], (List.append_nil _).symm, rfl⟩
    · refine Or.inr ?_
      cases h : s.gfeLatencyMetricsEnabled <;>
        simp [latencyCaptureAttempt, getGFELatencyMetricsFlag, h, noWriteFlag,
          List.all_append, List.all_map, Function.comp]

/-- **C5** witness: the flag-read entry point's own trace contains no bare
flag write. -/
theorem claim_C5_witness :
    (∃ b rest, (getGFELatencyMetricsFlag ⟨false⟩).2 =
        (setGFELatencyMetricsFlag ⟨false⟩ b).2 ++ rest ∧ noWriteFlag rest = true) ∨
    noWriteFlag (getGFELatencyMetricsFlag ⟨false⟩).2 = true :=
  (claim_C5_flagDiscipline ⟨false⟩ none [] ⟨"c", "d", "i", "v"⟩ [] "Read").2
    (getGFELatencyMetricsFlag ⟨false⟩).2 (by decide)

/-- **C6** (confirmed).  Each of the three GFE enable functions sets the
process-wide flag to true before attempting view registration — the
exclusive-lock write precedes every registration event in the trace — so
after any of them returns the flag reads true; after the disable function
returns, it reads false. -/
theorem claim_C6_flagSetBeforeRegistration (s : StatsState) (regErr : Option RegErr) :
    (EnableGfeLatencyView s regErr).1.gfeLatencyMetricsEnabled = true ∧
    (EnableGfeHeaderMissingCountView s regErr).1.gfeLatencyMetricsEnabled = true ∧
    (EnableGfeLatencyAndHeaderMissingCountViews s regErr).1.gfeLatencyMetricsEnabled = true ∧
    (DisableGfeLatencyAndHeaderMissingCountViews s).1.gfeLatencyMetricsEnabled = false ∧
    (EnableGfeLatencyView s regErr).2.1 =
      [Ev.lock, Ev.writeFlag true, Ev.unlock,
       Ev.registerView GFELatencyView.name] ∧
    (EnableGfeHeaderMissingCountView s regErr).2.1 =
      [Ev.lock, Ev.writeFlag true, Ev.unlock,
       Ev.registerView GFEHeaderMissingCountView.name] ∧
    (EnableGfeLatencyAndHeaderMissingCountViews s regErr).2.1 =
      [Ev.lock, Ev.writeFlag true, Ev.unlock,
       Ev.registerView GFELatencyView.name,
       Ev.registerView GFEHeaderMissingCountView.name] :=
  ⟨rfl, rfl, rfl, rfl, rfl, rfl, rfl⟩

/-- **C7** (confirmed).  When the registry rejects the registration, each
of the three GFE enable functions surfaces the registration error yet
leaves the enabled flag true: the flag mutation performed before
registration is never rolled back on error. -/
theorem claim_C7_noRollbackOnRegistrationError (s : StatsState) (e : RegErr) :
    (EnableGfeLatencyView s (some e)).2.2 = some e ∧
    (EnableGfeLatencyView s (some e)).1.gfeLatencyMetricsEnabled = true ∧
    (EnableGfeHeaderMissingCountView s (some e)).2.2 = some e ∧
    (EnableGfeHeaderMissingCountView s (some e)).1.gfeLatencyMetricsEnabled = true ∧
    (EnableGfeLatencyAndHeaderMissingCountViews s (some e)).2.2 = some e ∧
    (EnableGfeLatencyAndHeaderMissingCountViews s (some e)).1.gfeLatencyMetricsEnabled = true :=
  ⟨rfl, rfl, rfl, rfl, rfl, rfl⟩

/-! ## Claim C8 -/

/-- **C8** (confirmed; the database-name parser is modelled from the spec).
For every sessionClient whose database resource name fails to parse,
`getCommonTags` returns none (no tags) rather than an error; when the name
parses, it returns the bundle of the client id, the parsed database and
instance names, and the fixed library-version constant. -/
theorem claim_C8_getCommonTags (sc : SessionClient) :
    (∀ e, parseDatabaseName sc.database = .error e → getCommonTags sc = none) ∧
    (∀ p i d, parseDatabaseName sc.database = .ok (p, i, d) →
      getCommonTags sc = some
        { clientID := sc.id, database := d, instanceID := i,
          libVersion := versionRepo }) := by
  constructor
  · intro e he
    simp [getCommonTags, he]
  · intro p i d h
    simp [getCommonTags, h]

/-- **C8** witness: a well-formed resource name yields the tag bundle and a
malformed one yields none. -/
theorem claim_C8_witness :
    getCommonTags ⟨"client-1", "projects/p1/instances/i1/databases/d1"⟩ =
      some { clientID := "client-1", database := "d1", instanceID := "i1",
             libVersion := versionRepo } ∧
    getCommonTags ⟨"client-2", "malformed-name"⟩ = none :=
  ⟨(claim_C8_getCommonTags ⟨"client-1", "projects/p1/instances/i1/databases/d1"⟩).2
      "p1" "i1" "d1" (by rfl),
   (claim_C8_getCommonTags ⟨"client-2", "malformed-name"⟩).1
      (GoErr.numErrSyntax "malformed-name") (by rfl)⟩

end SpannerStats

namespace DisksClient

/-! ## Claim C9 -/

/-- **C9** (confirmed).  The disk client's List operation builds the URL
path /compute/v1/projects/{project}/zones/{zone}/disks from the request's
resource identifiers, and each of the five optional query parameters
appears among the encoded query's parameters if and only if the
corresponding optional request field is set, with that field's rendered
value. -/
theorem claim_C9_listDisksURL (ep : String) (req : ListDisksRequest) :
    listDisksURLPath ep req =
      ep ++ "/compute/v1/projects/" ++ req.project ++ "/zones/" ++ req.zone ++
        "/disks" ∧
    (∀ v, ("filter", v) ∈ listDisksQueryParams req ↔ req.filter = some v) ∧
    (∀ v, ("maxResults", v) ∈ listDisksQueryParams req ↔
      ∃ n, req.maxResults = some n ∧ v = toString n) ∧
    (∀ v, ("orderBy", v) ∈ listDisksQueryParams req ↔ req.orderBy = some v) ∧
    (∀ v, ("pageToken", v) ∈ listDisksQueryParams req ↔ req.pageToken = some v) ∧
    (∀ v, ("returnPartialSuccess", v) ∈ listDisksQueryParams req ↔
      ∃ b, req.returnPartialSuccess = some b ∧ v = fmtBool b) := by
  obtain ⟨p, z, f, mr, ob, pt, rps⟩ := req
  refine ⟨rfl, ?_, ?_, ?_, ?_, ?_⟩ <;>
    cases f <;> cases mr <;> cases ob <;> cases pt <;> cases rps <;>
      simp [listDisksQueryParams, eq_comm]

/-! ## Claim C10 -/

/-- **C10** (confirmed).  For every one of the 13 disksRESTClient
operations, if the HTTP response status code is not 200 OK the operation
returns a nil result together with a non-nil error built from the status
text, and the response body is neither read nor deserialized (the body
trace is empty). -/
theorem claim_C10_non200 (rsp : HTTPResponse) (h : rsp.statusCode ≠ httpStatusOK)
    (unmO : Unmarshaler Operation) (unmD : Unmarshaler Disk)
    (unmL : Unmarshaler DiskList) (unmA : Unmarshaler DiskAggregatedList)
    (unmP : Unmarshaler Policy) (unmT : Unmarshaler TestPermissionsResponse) :
    addResourcePoliciesRespond unmO rsp = ([], none, some (.statusErr rsp.status)) ∧
    aggregatedListRespond unmA rsp = ([], none, some (.statusErr rsp.status)) ∧
    createSnapshotRespond unmO rsp = ([], none, some (.statusErr rsp.status)) ∧
    deleteRespond unmO rsp = ([], none, some (.statusErr rsp.status)) ∧
    getRespond unmD rsp = ([], none, some (.statusErr rsp.status)) ∧
    getIamPolicyRespond unmP rsp = ([], none, some (.statusErr rsp.status)) ∧
    insertRespond unmO rsp = ([], none, some (.statusErr rsp.status)) ∧
    listRespond unmL rsp = ([], none, some (.statusErr rsp.status)) ∧
    removeResourcePoliciesRespond unmO rsp = ([], none, some (.statusErr rsp.status)) ∧
    resizeRespond unmO rsp = ([], none, some (.statusErr rsp.status)) ∧
    setIamPolicyRespond unmP rsp = ([], none, some (.statusErr rsp.status)) ∧
    setLabelsRespond unmO rsp = ([], none, some (.statusErr rsp.status)) ∧
    testIamPermissionsRespond unmT rsp = ([], none, some (.statusErr rsp.status)) := by
  have key : ∀ {α : Type} (unm : Unmarshaler α),
      handleHTTPResponse unm rsp =
        ([], none, some (SpannerStats.GoErr.statusErr rsp.status)) := by
    intro α unm
    simp [handleHTTPResponse, h]
  exact ⟨key unmO, key unmA, key unmO, key unmO, key unmD, key unmP, key unmO,
    key unmL, key unmO, key unmO, key unmP, key unmO, key unmT⟩

/-- **C10** witness: a 404 response to `Get` yields a nil result, the
status-text error, and an empty body trace. -/
theorem claim_C10_witness :
    getRespond (fun b => (⟨b⟩, none)) ⟨404, "404 Not Found", [], none⟩ =
      ([], none, some (.statusErr "404 Not Found")) :=
  (claim_C10_non200 ⟨404, "404 Not Found", [], none⟩ (by decide)
    (fun b => (⟨b⟩, none)) (fun b => (⟨b⟩, none)) (fun b => (⟨b⟩, none))
    (fun b => (⟨b⟩, none)) (fun b => (⟨b⟩, none)) (fun b => (⟨b⟩, none))).2.2.2.2.1

end DisksClient
